import Mathlib

/-!
Verification development for the `/api/summarize` route of the YTSummarize
repository (`src/app/api/summarize/route.ts`).

The development shallowly embeds the two components of the route:

* `extractYouTubeVideoId` — the pure URL-to-video-id extraction function,
  translated branch by branch from the TypeScript source.  JavaScript string
  primitives (`includes`, `split` on a string separator, `split` on the
  character class `[?#&]`, the regexes, `new URL(...).searchParams.get('v')`)
  are modelled over `List Char`.  The `new URL` constructor can throw; the
  source catches this locally, which is modelled by `urlGetV` returning
  `Option` (`none` = the constructor threw).  With that, the embedded
  function is total, mirroring the fact that the source never lets an
  exception escape.

* `POST` — the request handler, modelled as a pure function of the request
  fields and of the outcomes of the two outbound calls (YouTube metadata,
  OpenAI chat completion), which are passed in as `Except`-valued oracles
  (`.error` = the awaited call threw).  The handler returns the HTTP
  response it would produce together with the OpenAI request it would send
  (if any), so that properties of the payload actually sent can be stated.
-/

/-- Characters accepted by the source's id regexes `[a-zA-Z0-9_-]`. -/
def allowedChar (c : Char) : Bool :=
  ('a' ≤ c && c ≤ 'z') || ('A' ≤ c && c ≤ 'Z') || ('0' ≤ c && c ≤ '9') ||
    c == '_' || c == '-'

/-- Characters of the source's separator class `[?#&]` used in
`parts[1].split(/[?#&]/)[0]`. -/
def stopperChar (c : Char) : Bool :=
  c == '?' || c == '#' || c == '&'

/-- Conservative alphabet for host names used when quantifying over the
host part of a URL (letters, digits, `.`, `-`). -/
def hostChar (c : Char) : Bool :=
  ('a' ≤ c && c ≤ 'z') || ('A' ≤ c && c ≤ 'Z') || ('0' ≤ c && c ≤ '9') ||
    c == '.' || c == '-'

/-- Whitespace stripped by JavaScript `String.prototype.trim` (ASCII core
plus NBSP, the line separators and the BOM; exotic Unicode space separators
are not needed for the strings that arise here). -/
def jsWhitespace (c : Char) : Bool :=
  c == ' ' || c == '\t' || c == '\n' || c == '\r' || c == '\x0b' ||
    c == '\x0c' || c == '\xa0' || c == '\u2028' || c == '\u2029' || c == '\uFEFF'

/-- Models JavaScript `String.prototype.trim`. -/
def jsTrim (s : String) : String :=
  ⟨((s.data.dropWhile jsWhitespace).reverse.dropWhile jsWhitespace).reverse⟩

/-- Boolean test that `a` is an initial segment of `b`. -/
def leadsWith : List Char → List Char → Bool
  | [], _ => true
  | _ :: _, [] => false
  | a :: as, b :: bs => a == b && leadsWith as bs

/-- Index of the first occurrence of `m` as a contiguous substring of `s`
(the index JavaScript `indexOf` would return), `none` if there is none. -/
def findSubIdx (m : List Char) : List Char → Option Nat
  | [] => if leadsWith m [] then some 0 else none
  | c :: r => if leadsWith m (c :: r) then some 0 else (findSubIdx m r).map (· + 1)

/-- Models JavaScript `s.includes(m)`. -/
def hasSub (m s : List Char) : Bool :=
  (findSubIdx m s).isSome

/-- Models `s.split(m)` followed by the source's `parts.length > 1` check and
`parts[1]` access: `some` of the segment between the end of the first
occurrence of `m` and the start of the next occurrence (or the end of the
string), `none` when `m` does not occur in `s`. -/
def splitSecond (m s : List Char) : Option (List Char) :=
  match findSubIdx m s with
  | none => none
  | some i =>
    match findSubIdx m (s.drop (i + m.length)) with
    | none => some (s.drop (i + m.length))
    | some j => some ((s.drop (i + m.length)).take j)

/-- Models `part.split(/[?#&]/)[0]`: the prefix before the first `?`, `#`
or `&`. -/
def takeUntilStop (s : List Char) : List Char :=
  s.takeWhile (fun c => !stopperChar c)

/-- The `videoId` produced by one of the source's split-based branches
(youtu.be, youtube.com/v/, youtube.com/embed/): `parts[1].split(/[?#&]/)[0]`
when the marker occurs, the empty string otherwise. -/
def branchExtract (m url : List Char) : List Char :=
  match splitSecond m url with
  | some p1 => takeUntilStop p1
  | none => []

/-- Models the fallback `url.match(/([a-zA-Z0-9_-]{11})/)`: the leftmost
window of 11 consecutive characters from the allowed alphabet, if any. -/
def fallbackMatch : List Char → Option (List Char)
  | [] => none
  | c :: r =>
    if 11 ≤ (c :: r).length ∧ ((c :: r).take 11).all allowedChar = true then
      some ((c :: r).take 11)
    else fallbackMatch r

/-- There is a window of 11 consecutive allowed characters starting at
index `i` of `s`. -/
def windowAtB (s : List Char) (i : Nat) : Bool :=
  decide (11 ≤ (s.drop i).length) && ((s.drop i).take 11).all allowedChar

/-- Value of a hexadecimal digit. -/
def hexVal (c : Char) : Option Nat :=
  if '0' ≤ c ∧ c ≤ '9' then some (c.toNat - '0'.toNat)
  else if 'a' ≤ c ∧ c ≤ 'f' then some (c.toNat - 'a'.toNat + 10)
  else if 'A' ≤ c ∧ c ≤ 'F' then some (c.toNat - 'A'.toNat + 10)
  else none

/-- Models `application/x-www-form-urlencoded` decoding as performed by
`URLSearchParams` (`+` to space, `%XX` percent-decoding); multi-byte UTF-8
percent sequences are decoded bytewise, which coincides with the platform
on the ASCII-only strings occurring in this development. -/
def formDecode : List Char → List Char
  | [] => []
  | '+' :: rest => ' ' :: formDecode rest
  | '%' :: a :: b :: rest2 =>
    match hexVal a, hexVal b with
    | some x, some y => Char.ofNat (16 * x + y) :: formDecode rest2
    | _, _ => '%' :: formDecode (a :: b :: rest2)
  | c :: rest => c :: formDecode rest

/-- Models `s.split('&')` on the query string. -/
def splitAmp : List Char → List (List Char)
  | [] => [[]]
  | c :: r =>
    if c = '&' then [] :: splitAmp r
    else
      match splitAmp r with
      | h :: rest2 => (c :: h) :: rest2
      | [] => [[c]]

/-- Models parsing of one `name=value` pair by `URLSearchParams`. -/
def parsePair (p : List Char) : List Char × List Char :=
  let n := p.takeWhile (fun c => !(c == '='))
  if n.length == p.length then (formDecode p, [])
  else (formDecode n, formDecode (p.drop (n.length + 1)))

/-- Models `URLSearchParams(query).get(name)`: the value of the first pair
whose decoded name equals `name`; empty pairs are skipped. -/
def getParam (name query : List Char) : Option (List Char) :=
  let pairs := (splitAmp query).filter (fun p => !p.isEmpty)
  ((pairs.map parsePair).find? (fun pr => pr.fst == name)).map (fun pr => pr.snd)

/-- Models the scheme check of the WHATWG `URL` constructor for the inputs
relevant here: parsing succeeds for absolute `http://` / `https://` URLs
and the constructor throws (modelled as `none`) otherwise.  (The platform
accepts further schemes; all URLs this development reasons about are
http(s) or scheme-less, on which this model agrees with the platform.) -/
def schemeDrop (s : List Char) : Option (List Char) :=
  if leadsWith "http://".data s then some (s.drop 7)
  else if leadsWith "https://".data s then some (s.drop 8)
  else none

/-- The authority part of the post-scheme remainder of an http(s) URL:
everything before the first `/`, `?` or `#`. -/
def authOf (rest : List Char) : List Char :=
  rest.takeWhile (fun c => !(c == '/' || c == '?' || c == '#'))

/-- The query string of the post-scheme remainder: the part strictly
between the first `?` (after the authority) and the first `#`. -/
def queryOf (rest : List Char) : List Char :=
  (((rest.drop (authOf rest).length).takeWhile (fun c => !(c == '#'))).dropWhile
    (fun c => !(c == '?'))).drop 1

/-- Models `new URL(url).searchParams.get('v')` for the inputs relevant
here: `none` when the constructor throws (non-http(s) scheme, or empty
authority), otherwise the decoded value of the first `v` parameter of the
query. -/
def urlGetV (url : List Char) : Option (List Char) :=
  match schemeDrop url with
  | none => none
  | some rest =>
    if (authOf rest).isEmpty then none
    else getParam "v".data (queryOf rest)

/-- Marker of the source's format-1 branch. -/
def markerShort : List Char := "youtu.be/".data

/-- Marker of the source's format-2 branch. -/
def markerWatch : List Char := "youtube.com/watch".data

/-- Marker of the source's format-3 branch. -/
def markerV : List Char := "youtube.com/v/".data

/-- Marker of the source's format-4 branch. -/
def markerEmbed : List Char := "youtube.com/embed/".data

/-- Models the final validation regex `^[a-zA-Z0-9_-]{11}$`. -/
def isValidId (v : List Char) : Bool :=
  (v.length == 11) && v.all allowedChar

/-- The `videoId` candidate produced by the source's five-way priority
dispatch (`youtu.be/`, `youtube.com/watch`, `youtube.com/v/`,
`youtube.com/embed/`, fallback regex), before validation. -/
def dispatchId (url : List Char) : List Char :=
  if hasSub markerShort url then branchExtract markerShort url
  else if hasSub markerWatch url then
    match urlGetV url with
    | some v => v
    | none => []
  else if hasSub markerV url then branchExtract markerV url
  else if hasSub markerEmbed url then branchExtract markerEmbed url
  else
    match fallbackMatch url with
    | some w => w
    | none => []

/-- Body of `extractYouTubeVideoId` after the empty/hardcoded checks: the
dispatch followed by the validation gate
`if (videoId && /^[a-zA-Z0-9_-]{11}$/.test(videoId))`. -/
def extractCore (url : List Char) : List Char :=
  if !(dispatchId url).isEmpty && isValidId (dispatchId url) then dispatchId url else []

/-- The exact URL special-cased at the top of `extractYouTubeVideoId`. -/
def hardcodedUrl : String := "https://youtu.be/QiZ62yswdPw?si=IHWvSDSvLUQXqYpm"

/-- Embedding of `extractYouTubeVideoId`.  The argument is `Option String`
so that the `null` / `undefined` inputs rejected by the source's
`if (!url || typeof url !== 'string')` guard are representable (`none`);
that guard also rejects the empty string.  The function is total: the one
throwing operation of the source (`new URL`) is modelled by `urlGetV`
returning `none`, exactly where the source catches the exception. -/
def extractYouTubeVideoId : Option String → String
  | none => ""
  | some url =>
    if url = "" then ""
    else if url = hardcodedUrl then "QiZ62yswdPw"
    else ⟨extractCore url.data⟩

/-- The same function with the hardcoded-URL shortcut removed, used to state
that the shortcut is behaviour-preserving. -/
def extractNoHardcode : Option String → String
  | none => ""
  | some url =>
    if url = "" then ""
    else ⟨extractCore url.data⟩

/-- `m` has no non-trivial self-overlap (no proper border): an occurrence of
`m` cannot start strictly inside another occurrence of `m`. -/
def noOverlapB (m : List Char) : Bool :=
  (List.range m.length).all fun k => (k == 0) || decide (m.drop k ≠ m.take (m.length - k))

/-- Decidable side conditions on a marker `m` ensuring that no occurrence of
`m` can start inside an 11-character allowed-alphabet id or at a following
`?`/`#`/`&` character: `m` is nonempty, contains a character outside the
allowed alphabet, and no allowed-alphabet prefix of `m` is followed in `m`
by a stopper character. -/
def markerIdSafeB (m : List Char) : Bool :=
  (!m.isEmpty) && (!(m.all allowedChar)) &&
    ((List.range m.length).all fun k =>
      !(((m.take k).all allowedChar) &&
        (match m.drop k with
         | c :: _ => stopperChar c
         | [] => false)))

/-- The trailing content after an id in a path-based URL shape: empty, or
starting with one of the separator characters `?`, `#`, `&`. -/
def tailStopOk (t : List Char) : Bool :=
  t.isEmpty || stopperChar (t.headD ' ')

/-- The trailing content after the id in a `watch?v=` URL shape: empty, or
starting with `&` (a further query parameter) or `#` (a fragment). -/
def tailAmpOk (t : List Char) : Bool :=
  t.isEmpty || (t.headD ' ') == '&' || (t.headD ' ') == '#'

/-- The `snippet` object of the first item of a YouTube metadata response.
A missing `description` field is modelled as the empty string, which the
source's truthiness check treats identically. -/
structure Snippet where
  title : String
  description : String

/-- The `message` object of an OpenAI chat-completion choice. -/
structure ChatMsg where
  content : Option String

/-- One element of the `choices` array of an OpenAI chat completion. -/
structure ChatChoice where
  message : Option ChatMsg

/-- An OpenAI chat-completion response. -/
structure Completion where
  choices : List ChatChoice

/-- Models the source's response validation
`completion?.choices?.[0]?.message?.content` under JavaScript truthiness:
`some` of the text when every link of the chain is present and the text is
nonempty, `none` otherwise. -/
def completionContent (c : Completion) : Option String :=
  match c.choices with
  | [] => none
  | ch :: _ =>
    match ch.message with
    | none => none
    | some m =>
      match m.content with
      | none => none
      | some s => if s = "" then none else some s

/-- Outcome of the awaited YouTube metadata call, passed to `POST` as an
oracle: `.error` models a thrown/rejected call (caught by the source's
inner `catch`), `.ok none` models a response whose `items[0]?.snippet` is
absent, `.ok (some sn)` a response with a snippet. -/
abbrev YoutubeOutcome := Except String (Option Snippet)

/-- Outcome of the awaited OpenAI call: `.error` models a thrown/rejected
call (caught by the source's `catch (openaiError)`). -/
abbrev OpenAIOutcome := Except String Completion

/-- ContentSource synthesis (source lines 74–80): the title/description
text used as a transcript substitute, empty when the call failed or no
usable description exists. -/
def buildTranscript (yt : YoutubeOutcome) : String :=
  match yt with
  | .error _ => ""
  | .ok none => ""
  | .ok (some sn) =>
    if sn.description = "" then ""
    else "[Video title: " ++ sn.title ++ "]\n\n" ++ sn.description

/-- The source's truncation `transcriptText.substring(0, 60000)` guarded by
`transcriptText.length > 60000` (lengths counted in characters; the source
counts UTF-16 code units, which coincide on the text reasoned about). -/
def truncateContent (t : String) : String :=
  if t.length > 60000 then ⟨t.data.take 60000⟩ else t

/-- The `ko` system prompt of the source. -/
def systemPromptKo : String :=
  "당신은 유쾌하고 친절한 유튜브 영상 설명 어시스턴트입니다. 전문적인 내용을 쉽게 풀어서 설명하며, 시청자가 이해하기 쉽도록 명확한 구조와 예시를 제공합니다. 중요한 내용은 소제목(예: ## 이처럼 작성하세요)으로 구분하고, 리스트나 번호 매기기를 통해 정보를 정리해 주세요."

/-- The `en` system prompt of the source. -/
def systemPromptEn : String :=
  "You are a helpful, friendly, and conversational YouTube video summarizer. You respond in a warm, engaging tone using clear explanations, subheadings, bullet points, and numbered lists. Structure your responses with helpful formatting like Markdown-style **bold**, _italics_, and numbered or bulleted lists. Always try to make complex ideas simple."

/-- The `ko` user-prompt instruction of the source. -/
def userPromptKo : String := "다음 자막을 이용해 유튜브 동영상을 요약해주세요:\n\n"

/-- The `en` user-prompt instruction of the source. -/
def userPromptEn : String := "Please summarize this youtube video using the transcript:\n\n"

/-- The `ko` `noTranscript` error message of the source. -/
def errKoNoTranscript : String :=
  "이 동영상에 사용 가능한 자막이 없습니다. 자막이 활성화된 다른 동영상을 시도해보세요."

/-- The `en` `noTranscript` error message of the source. -/
def errEnNoTranscript : String :=
  "No transcript is available for this video. Please try a different video that has captions enabled."

/-- Models `systemPrompts[locale] || "You are a helpful video summarizer."`:
the two-key table lookup with the generic fallback. -/
def systemPromptFor (locale : String) : String :=
  if locale = "ko" then systemPromptKo
  else if locale = "en" then systemPromptEn
  else "You are a helpful video summarizer."

/-- Models `userPrompts[locale] || "Please summarize this content: "`. -/
def userPromptFor (locale : String) : String :=
  if locale = "ko" then userPromptKo
  else if locale = "en" then userPromptEn
  else "Please summarize this content: "

/-- Models `errorMessages[locale]`: the two-entry table has no fallback, so
an unrecognized locale yields `none` (`undefined` in the source), on which
the subsequent `.noTranscript` access throws. -/
def errorMessagesFor (locale : String) : Option String :=
  if locale = "ko" then some errKoNoTranscript
  else if locale = "en" then some errEnNoTranscript
  else none

/-- Message of the `TypeError` thrown by reading `.noTranscript` off the
`undefined` produced by an unrecognized-locale lookup; the outer `catch`
returns it as `error.message`. -/
def localeLookupCrashMsg : String :=
  "Cannot read properties of undefined (reading 'noTranscript')"

/-- The 400-response message for an unextractable video id. -/
def errExtractMsg : String :=
  "Could not extract a valid YouTube video ID from the provided URL."

/-- The JSON body and status of a response produced by the handler; fields
absent from the respective body are `none`. -/
structure ApiResponse where
  status : Nat
  error : Option String := none
  receivedUrl : Option String := none
  summary : Option String := none

/-- The request the handler sends to the OpenAI chat-completion API. -/
structure OpenAIRequest where
  model : String
  maxTokens : Nat
  temperatureTenths : Nat
  systemContent : String
  userContent : String

/-- Result of one run of the handler: the HTTP response, plus the OpenAI
request that was issued (`none` when the summarization call was never
reached). -/
structure PostResult where
  response : ApiResponse
  openaiCall : Option OpenAIRequest

/-- The request built for the OpenAI call (source lines 105–121): fixed
model, `max_tokens: 2000`, `temperature: 0.7` (stored as tenths), the
locale's system prompt, and the locale's user-prompt instruction
concatenated with the (truncated) ContentSource. -/
def mkRequest (locale : String) (transcriptText : String) : OpenAIRequest :=
  { model := "gpt-4o", maxTokens := 2000, temperatureTenths := 7,
    systemContent := systemPromptFor locale,
    userContent := userPromptFor locale ++ truncateContent transcriptText }

/-- Embedding of the `POST` handler body (after JSON-body destructuring,
with `locale` already defaulted to `"ko"`), as a function of the request
fields and the two outbound-call oracles.  The unrecognized-locale lookup
failure propagates to the outer `catch`, which maps it to a 500 response
carrying the error's message. -/
def POST (videoUrl locale : String) (yt : YoutubeOutcome) (ai : OpenAIOutcome) : PostResult :=
  let videoId := extractYouTubeVideoId (some videoUrl)
  if videoId = "" then
    { response := { status := 400, error := some errExtractMsg, receivedUrl := some videoUrl },
      openaiCall := none }
  else
    let transcriptText := buildTranscript yt
    if jsTrim transcriptText = "" then
      match errorMessagesFor locale with
      | some msg =>
        { response := { status := 400, error := some msg }, openaiCall := none }
      | none =>
        { response := { status := 500, error := some localeLookupCrashMsg }, openaiCall := none }
    else
      match ai with
      | .error m =>
        { response := { status := 500, error := some ("OpenAI failed: " ++ m) },
          openaiCall := some (mkRequest locale transcriptText) }
      | .ok c =>
        match completionContent c with
        | none =>
          { response := { status := 500, error := some "Failed to generate summary" },
            openaiCall := some (mkRequest locale transcriptText) }
        | some summary =>
          { response := { status := 200, summary := some summary },
            openaiCall := some (mkRequest locale transcriptText) }

/-! Helper lemmas about the string primitives. -/

theorem leadsWith_iff (a b : List Char) : leadsWith a b = true ↔ ∃ r, b = a ++ r := by
  induction a generalizing b with
  | nil => simp [leadsWith]
  | cons c as ih =>
    cases b with
    | nil => simp [leadsWith]
    | cons d bs =>
      simp only [leadsWith, Bool.and_eq_true, beq_iff_eq]
      constructor
      · rintro ⟨rfl, h⟩
        obtain ⟨r, rfl⟩ := (ih bs).mp h
        exact ⟨r, rfl⟩
      · rintro ⟨r, hr⟩
        injection hr with h1 h2
        exact ⟨h1.symm, (ih bs).mpr ⟨r, h2⟩⟩

theorem leadsWith_self_app (a r : List Char) : leadsWith a (a ++ r) = true :=
  (leadsWith_iff a _).mpr ⟨r, rfl⟩

theorem leadsWith_length {a b : List Char} (h : leadsWith a b = true) :
    a.length ≤ b.length := by
  obtain ⟨r, rfl⟩ := (leadsWith_iff a b).mp h
  simp

theorem leadsWith_eq_take {a b : List Char} (h : leadsWith a b = true) :
    a = b.take a.length := by
  obtain ⟨r, rfl⟩ := (leadsWith_iff a b).mp h
  exact (List.take_left a r).symm

theorem leadsWith_app_left {a b c : List Char} (h : leadsWith a (b ++ c) = true)
    (hle : a.length ≤ b.length) : leadsWith a b = true := by
  have ht := leadsWith_eq_take h
  rw [List.take_append_eq_append_take, Nat.sub_eq_zero_of_le hle, List.take_zero,
    List.append_nil] at ht
  refine (leadsWith_iff a b).mpr ⟨b.drop a.length, ?_⟩
  have h2 := List.take_append_drop a.length b
  rw [← ht] at h2
  exact h2.symm

theorem leadsWith_split {a b c : List Char} (h : leadsWith a (b ++ c) = true)
    (hlt : b.length < a.length) :
    a.take b.length = b ∧ leadsWith (a.drop b.length) c = true := by
  obtain ⟨r, hr⟩ := (leadsWith_iff _ _).mp h
  constructor
  · have h1 : (b ++ c).take b.length = (a ++ r).take b.length := by rw [hr]
    rw [List.take_left, List.take_append_eq_append_take,
      Nat.sub_eq_zero_of_le (le_of_lt hlt), List.take_zero, List.append_nil] at h1
    exact h1.symm
  · refine (leadsWith_iff _ _).mpr ⟨r, ?_⟩
    have h2 : (b ++ c).drop b.length = (a ++ r).drop b.length := by rw [hr]
    rw [List.drop_left, List.drop_append_eq_append_drop,
      Nat.sub_eq_zero_of_le (le_of_lt hlt), List.drop_zero] at h2
    exact h2

theorem leadsWith_app_eq {a b : List Char} (r : List Char) (hle : a.length ≤ b.length) :
    leadsWith a (b ++ r) = leadsWith a b := by
  rw [Bool.eq_iff_iff]
  constructor
  · intro h
    exact leadsWith_app_left h hle
  · intro h
    obtain ⟨s, rfl⟩ := (leadsWith_iff _ _).mp h
    rw [List.append_assoc]
    exact leadsWith_self_app _ _

theorem leadsWith_all {P : Char → Bool} {a b : List Char} (h : leadsWith a b = true)
    (hb : b.all P = true) : a.all P = true := by
  obtain ⟨r, rfl⟩ := (leadsWith_iff _ _).mp h
  rw [List.all_append, Bool.and_eq_true] at hb
  exact hb.1

theorem findSubIdx_some {m s : List Char} {i : Nat} (h : findSubIdx m s = some i) :
    leadsWith m (s.drop i) = true ∧ ∀ j, j < i → leadsWith m (s.drop j) = false := by
  induction s generalizing i with
  | nil =>
    simp only [findSubIdx] at h
    split at h
    · rename_i hl
      injection h with h'
      subst h'
      exact ⟨hl, fun j hj => absurd hj (Nat.not_lt_zero j)⟩
    · exact absurd h (by simp)
  | cons c r ih =>
    simp only [findSubIdx] at h
    split at h
    · rename_i hl
      injection h with h'
      subst h'
      exact ⟨hl, fun j hj => absurd hj (Nat.not_lt_zero j)⟩
    · rename_i hl
      rw [Option.map_eq_some'] at h
      obtain ⟨i', hi', rfl⟩ := h
      obtain ⟨h1, h2⟩ := ih hi'
      refine ⟨by simpa [List.drop_succ_cons] using h1, ?_⟩
      intro j hj
      cases j with
      | zero =>
        rw [List.drop_zero]
        exact Bool.not_eq_true _ ▸ Bool.of_not_eq_true hl
      | succ j' =>
        rw [List.drop_succ_cons]
        exact h2 j' (by omega)

theorem findSubIdx_isSome_of {m s : List Char} (i : Nat)
    (h : leadsWith m (s.drop i) = true) : (findSubIdx m s).isSome = true := by
  induction s generalizing i with
  | nil =>
    rw [List.drop_nil] at h
    simp [findSubIdx, h]
  | cons c r ih =>
    cases i with
    | zero =>
      rw [List.drop_zero] at h
      simp [findSubIdx, h]
    | succ i' =>
      rw [List.drop_succ_cons] at h
      simp only [findSubIdx]
      split
      · simp
      · simpa [Option.isSome_map'] using ih i' h

theorem findSubIdx_none {m s : List Char} (h : findSubIdx m s = none) (j : Nat) :
    leadsWith m (s.drop j) = false := by
  cases hb : leadsWith m (s.drop j) with
  | false => rfl
  | true =>
    have hs := findSubIdx_isSome_of j hb
    rw [h] at hs
    simp at hs

theorem noOverlap_ne {m : List Char} (hno : noOverlapB m = true) {k : Nat}
    (hk0 : k ≠ 0) (hk : k < m.length) : m.drop k ≠ m.take (m.length - k) := by
  rw [noOverlapB, List.all_eq_true] at hno
  have h := hno k (List.mem_range.mpr hk)
  simp only [Bool.or_eq_true, beq_iff_eq, decide_eq_true_eq] at h
  rcases h with h | h
  · exact absurd h hk0
  · exact h

theorem markerIdSafe_parts {m : List Char} (h : markerIdSafeB m = true) :
    m ≠ [] ∧ m.all allowedChar = false ∧
      ∀ k, k < m.length → (m.take k).all allowedChar = true →
        (match m.drop k with | c :: _ => stopperChar c | [] => false) = false := by
  rw [markerIdSafeB] at h
  simp only [Bool.and_eq_true, Bool.not_eq_true'] at h
  obtain ⟨⟨hne, hnall⟩, hrange⟩ := h
  refine ⟨?_, hnall, ?_⟩
  · intro hnil
    rw [hnil] at hne
    simp at hne
  · intro k hk hA
    rw [List.all_eq_true] at hrange
    have hf := hrange k (List.mem_range.mpr hk)
    rw [Bool.not_eq_true'] at hf
    simpa [hA] using hf

theorem all_drop {P : Char → Bool} {l : List Char} (h : l.all P = true) (n : Nat) :
    (l.drop n).all P = true := by
  rw [List.all_eq_true] at h ⊢
  exact fun x hx => h x (List.mem_of_mem_drop hx)

theorem all_take {P : Char → Bool} {l : List Char} (h : l.all P = true) (n : Nat) :
    (l.take n).all P = true := by
  rw [List.all_eq_true] at h ⊢
  exact fun x hx => h x (List.mem_of_mem_take hx)

theorem allowed_beq_false {c : Char} (d : Char) (h : allowedChar c = true)
    (hd : allowedChar d = false) : (c == d) = false := by
  cases hb : (c == d) with
  | false => rfl
  | true =>
    have hcd : c = d := by simpa using hb
    rw [hcd] at h
    rw [h] at hd
    exact absurd hd (by simp)

theorem allowed_not_stopper {c : Char} (h : allowedChar c = true) :
    stopperChar c = false := by
  rw [stopperChar, allowed_beq_false '?' h (by decide), allowed_beq_false '#' h (by decide),
    allowed_beq_false '&' h (by decide)]
  rfl

theorem takeWhile_app_of_all {P : Char → Bool} {a : List Char} (b : List Char)
    (h : a.all P = true) : (a ++ b).takeWhile P = a ++ b.takeWhile P := by
  induction a with
  | nil => rfl
  | cons c r ih =>
    rw [List.all_cons, Bool.and_eq_true] at h
    simp [List.takeWhile_cons, h.1, ih h.2]

theorem takeWhile_of_all {P : Char → Bool} {a : List Char} (h : a.all P = true) :
    a.takeWhile P = a := by
  have h2 := takeWhile_app_of_all (P := P) [] h
  simpa using h2

theorem takeWhile_cons_stop {P : Char → Bool} {c : Char} (l : List Char)
    (h : P c = false) : (c :: l).takeWhile P = [] := by
  simp [List.takeWhile_cons, h]

theorem dropWhile_app_of_all {P : Char → Bool} {a : List Char} (b : List Char)
    (h : a.all P = true) : (a ++ b).dropWhile P = b.dropWhile P := by
  induction a with
  | nil => rfl
  | cons c r ih =>
    rw [List.all_cons, Bool.and_eq_true] at h
    simp [List.dropWhile_cons, h.1, ih h.2]

theorem dropWhile_cons_stop {P : Char → Bool} {c : Char} (l : List Char)
    (h : P c = false) : (c :: l).dropWhile P = c :: l := by
  simp [List.dropWhile_cons, h]

theorem findSubIdx_first (m p r : List Char) (hno : noOverlapB m = true)
    (hp : findSubIdx m p = none) : findSubIdx m (p ++ (m ++ r)) = some p.length := by
  have h1 : leadsWith m ((p ++ (m ++ r)).drop p.length) = true := by
    rw [List.drop_left]
    exact leadsWith_self_app m r
  have h2 := findSubIdx_isSome_of p.length h1
  rw [Option.isSome_iff_exists] at h2
  obtain ⟨i, hi⟩ := h2
  obtain ⟨hlead, hmin⟩ := findSubIdx_some hi
  have hile : i ≤ p.length := by
    by_contra hgt
    have := hmin p.length (by omega)
    rw [h1] at this
    exact absurd this (by simp)
  have hnlt : ¬i < p.length := by
    intro hlt
    rw [List.drop_append_eq_append_drop, Nat.sub_eq_zero_of_le (le_of_lt hlt),
      List.drop_zero] at hlead
    have hklen : (p.drop i).length = p.length - i := List.length_drop i p
    by_cases hc : m.length ≤ (p.drop i).length
    · have := leadsWith_app_left hlead hc
      have hfalse := findSubIdx_none hp i
      rw [this] at hfalse
      exact absurd hfalse (by simp)
    · push_neg at hc
      obtain ⟨htake, hrest⟩ := leadsWith_split hlead hc
      have hdlen : (m.drop (p.drop i).length).length = m.length - (p.drop i).length := by
        simp
      have hml : (m.drop (p.drop i).length).length ≤ m.length := by omega
      have h3 := leadsWith_app_left hrest hml
      have h4 := leadsWith_eq_take h3
      rw [hdlen] at h4
      have hk0 : (p.drop i).length ≠ 0 := by
        rw [hklen]
        omega
      exact absurd h4 (noOverlap_ne hno hk0 hc)
  have : i = p.length := by omega
  rw [this] at hi
  exact hi

theorem findSubIdx_ge_of_idtail {m : List Char} (hsafe : markerIdSafeB m = true)
    {id t : List Char} {j : Nat} (hlen : id.length = 11)
    (hall : id.all allowedChar = true) (ht : tailStopOk t = true)
    (h : findSubIdx m (id ++ t) = some j) : 12 ≤ j := by
  obtain ⟨hmne, hmnall, hcond⟩ := markerIdSafe_parts hsafe
  obtain ⟨hlead, _⟩ := findSubIdx_some h
  by_contra hlt
  push_neg at hlt
  have hj11 : j ≤ 11 := by omega
  rw [List.drop_append_eq_append_drop] at hlead
  have hjid : j - id.length = 0 := by omega
  rw [hjid, List.drop_zero] at hlead
  have hklen : (id.drop j).length = 11 - j := by
    rw [List.length_drop, hlen]
  by_cases hc : m.length ≤ (id.drop j).length
  · have h2 := leadsWith_app_left hlead hc
    have h3 := leadsWith_all h2 (all_drop hall j)
    rw [h3] at hmnall
    exact absurd hmnall (by simp)
  · push_neg at hc
    obtain ⟨htake, hrest⟩ := leadsWith_split hlead hc
    have hA : (m.take (id.drop j).length).all allowedChar = true := by
      rw [htake]
      exact all_drop hall j
    have hcond2 := hcond (id.drop j).length hc hA
    have hdne : m.drop (id.drop j).length ≠ [] := by
      apply List.ne_nil_of_length_pos
      simp only [List.length_drop]
      omega
    obtain ⟨c, cs, hcons⟩ := List.exists_cons_of_ne_nil hdne
    rw [hcons] at hcond2 hrest
    cases t with
    | nil => simp [leadsWith] at hrest
    | cons d t2 =>
      simp only [tailStopOk, List.headD, List.isEmpty_cons, Bool.false_or] at ht
      rw [leadsWith] at hrest
      rw [Bool.and_eq_true, beq_iff_eq] at hrest
      rw [hrest.1] at hcond2
      simp only at hcond2
      rw [ht] at hcond2
      exact absurd hcond2 (by simp)

theorem all_not_stopper {id : List Char} (hall : id.all allowedChar = true) :
    id.all (fun c => !stopperChar c) = true := by
  rw [List.all_eq_true] at hall ⊢
  intro x hx
  rw [allowed_not_stopper (hall x hx)]
  rfl

theorem takeUntilStop_app {id t : List Char} (hall : id.all allowedChar = true)
    (ht : tailStopOk t = true) : takeUntilStop (id ++ t) = id := by
  rw [takeUntilStop, takeWhile_app_of_all t (all_not_stopper hall)]
  cases t with
  | nil => simp
  | cons d t2 =>
    simp only [tailStopOk, List.headD, List.isEmpty_cons, Bool.false_or] at ht
    rw [takeWhile_cons_stop t2 (by rw [ht]; rfl)]
    simp

theorem tailStopOk_take {t : List Char} (ht : tailStopOk t = true) (n : Nat) :
    tailStopOk (t.take n) = true := by
  cases t with
  | nil => simp [tailStopOk]
  | cons d t2 =>
    cases n with
    | zero => rfl
    | succ n' =>
      rw [List.take_succ_cons]
      simpa [tailStopOk] using ht

theorem splitSecond_eq_of_some {m s : List Char} {i : Nat} (h : findSubIdx m s = some i) :
    splitSecond m s =
      match findSubIdx m (s.drop (i + m.length)) with
      | none => some (s.drop (i + m.length))
      | some j => some ((s.drop (i + m.length)).take j) := by
  rw [splitSecond, h]

theorem branchExtract_app (m p id t : List Char) (hno : noOverlapB m = true)
    (hsafe : markerIdSafeB m = true) (hp : findSubIdx m p = none)
    (hlen : id.length = 11) (hall : id.all allowedChar = true)
    (ht : tailStopOk t = true) :
    branchExtract m (p ++ (m ++ (id ++ t))) = id := by
  have h1 := findSubIdx_first m p (id ++ t) hno hp
  have hdrop : (p ++ (m ++ (id ++ t))).drop (p.length + m.length) = id ++ t := by
    rw [← List.drop_drop, List.drop_left, List.drop_left]
  rw [branchExtract, splitSecond_eq_of_some h1, hdrop]
  cases h2 : findSubIdx m (id ++ t) with
  | none =>
    simp only [h2]
    exact takeUntilStop_app hall ht
  | some j =>
    have hj := findSubIdx_ge_of_idtail hsafe hlen hall ht h2
    simp only [h2]
    rw [List.take_append_eq_append_take, List.take_of_length_le (by omega), hlen]
    exact takeUntilStop_app hall (tailStopOk_take ht (j - 11))

theorem hasSub_mid (m p r : List Char) : hasSub m (p ++ (m ++ r)) = true := by
  rw [hasSub]
  apply findSubIdx_isSome_of p.length
  rw [List.drop_left]
  exact leadsWith_self_app m r

theorem extractCore_of_valid {url id : List Char} (hd : dispatchId url = id)
    (hlen : id.length = 11) (hall : id.all allowedChar = true) :
    extractCore url = id := by
  have hne : id.isEmpty = false := by
    cases id with
    | nil => simp at hlen
    | cons c r => rfl
  rw [extractCore, hd, isValidId, hne, hlen, hall]
  rfl

theorem extractCore_of_nil {url : List Char} (hd : dispatchId url = []) :
    extractCore url = [] := by
  rw [extractCore, hd]
  rfl

theorem dispatchId_youtuBe (p id t : List Char) (hp : findSubIdx markerShort p = none)
    (hlen : id.length = 11) (hall : id.all allowedChar = true)
    (ht : tailStopOk t = true) :
    dispatchId (p ++ (markerShort ++ (id ++ t))) = id := by
  rw [dispatchId, hasSub_mid markerShort p (id ++ t), if_pos rfl]
  exact branchExtract_app markerShort p id t (by decide) (by decide) hp hlen hall ht

theorem dispatchId_watch {url : List Char} (h1 : hasSub markerShort url = false)
    (h2 : hasSub markerWatch url = true) {v : List Char} (hv : urlGetV url = some v) :
    dispatchId url = v := by
  rw [dispatchId, h1, h2, hv, if_neg (by simp), if_pos rfl]

theorem dispatchId_watch_none {url : List Char} (h1 : hasSub markerShort url = false)
    (h2 : hasSub markerWatch url = true) (hv : urlGetV url = none) :
    dispatchId url = [] := by
  rw [dispatchId, h1, h2, hv, if_neg (by simp), if_pos rfl]

theorem dispatchId_v (p id t : List Char)
    (h1 : hasSub markerShort (p ++ (markerV ++ (id ++ t))) = false)
    (h2 : hasSub markerWatch (p ++ (markerV ++ (id ++ t))) = false)
    (hp : findSubIdx markerV p = none)
    (hlen : id.length = 11) (hall : id.all allowedChar = true)
    (ht : tailStopOk t = true) :
    dispatchId (p ++ (markerV ++ (id ++ t))) = id := by
  rw [dispatchId, h1, h2, hasSub_mid markerV p (id ++ t),
    if_neg (by simp), if_neg (by simp), if_pos rfl]
  exact branchExtract_app markerV p id t (by decide) (by decide) hp hlen hall ht

theorem dispatchId_embed (p id t : List Char)
    (h1 : hasSub markerShort (p ++ (markerEmbed ++ (id ++ t))) = false)
    (h2 : hasSub markerWatch (p ++ (markerEmbed ++ (id ++ t))) = false)
    (h3 : hasSub markerV (p ++ (markerEmbed ++ (id ++ t))) = false)
    (hp : findSubIdx markerEmbed p = none)
    (hlen : id.length = 11) (hall : id.all allowedChar = true)
    (ht : tailStopOk t = true) :
    dispatchId (p ++ (markerEmbed ++ (id ++ t))) = id := by
  rw [dispatchId, h1, h2, h3, hasSub_mid markerEmbed p (id ++ t),
    if_neg (by simp), if_neg (by simp), if_neg (by simp), if_pos rfl]
  exact branchExtract_app markerEmbed p id t (by decide) (by decide) hp hlen hall ht

theorem dispatchId_fallback {url : List Char} (h1 : hasSub markerShort url = false)
    (h2 : hasSub markerWatch url = false) (h3 : hasSub markerV url = false)
    (h4 : hasSub markerEmbed url = false) :
    dispatchId url =
      (match fallbackMatch url with | some w => w | none => []) := by
  rw [dispatchId, h1, h2, h3, h4, if_neg (by simp), if_neg (by simp), if_neg (by simp),
    if_neg (by simp)]

theorem stringMk_ne_empty {l : List Char} (h : l ≠ []) : (⟨l⟩ : String) ≠ "" := by
  intro he
  exact h (congrArg String.data he)

theorem extract_some_mk {l : List Char} (h : l ≠ []) (hhc : (⟨l⟩ : String) ≠ hardcodedUrl) :
    extractYouTubeVideoId (some ⟨l⟩) = ⟨extractCore l⟩ := by
  simp only [extractYouTubeVideoId]
  rw [if_neg (stringMk_ne_empty h), if_neg hhc]

theorem noHardcode_some_mk {l : List Char} (h : l ≠ []) :
    extractNoHardcode (some ⟨l⟩) = ⟨extractCore l⟩ := by
  simp only [extractNoHardcode]
  rw [if_neg (stringMk_ne_empty h)]

theorem extract_eq_noHardcode (u : Option String) :
    extractYouTubeVideoId u = extractNoHardcode u := by
  cases u with
  | none => rfl
  | some s =>
    by_cases h1 : s = ""
    · simp [extractYouTubeVideoId, extractNoHardcode, h1]
    · by_cases h2 : s = hardcodedUrl
      · subst h2
        decide
      · simp [extractYouTubeVideoId, extractNoHardcode, h1, h2]

theorem hostChar_beq_false {c : Char} (d : Char) (h : hostChar c = true)
    (hd : hostChar d = false) : (c == d) = false := by
  cases hb : (c == d) with
  | false => rfl
  | true =>
    have hcd : c = d := by simpa using hb
    rw [hcd] at h
    rw [h] at hd
    exact absurd hd (by simp)

theorem all_allowed_nbeq (d : Char) (hd : allowedChar d = false) {id : List Char}
    (hall : id.all allowedChar = true) : id.all (fun c => !(c == d)) = true := by
  rw [List.all_eq_true] at hall ⊢
  intro x hx
  rw [allowed_beq_false d (hall x hx) hd]
  rfl

theorem all_hostChar_notdelim {w : List Char} (hw : w.all hostChar = true) :
    w.all (fun c => !(c == '/' || c == '?' || c == '#')) = true := by
  rw [List.all_eq_true] at hw ⊢
  intro x hx
  rw [hostChar_beq_false '/' (hw x hx) (by decide),
    hostChar_beq_false '?' (hw x hx) (by decide),
    hostChar_beq_false '#' (hw x hx) (by decide)]
  rfl

theorem formDecode_of_allowed {l : List Char} (h : l.all allowedChar = true) :
    formDecode l = l := by
  induction l with
  | nil => rfl
  | cons c r ih =>
    rw [List.all_cons, Bool.and_eq_true] at h
    have hplus : ¬(c = '+') := by
      intro hc
      rw [hc] at h
      exact absurd h.1 (by decide)
    have hpct : ¬(c = '%') := by
      intro hc
      rw [hc] at h
      exact absurd h.1 (by decide)
    rw [formDecode.eq_def]
    split
    · rename_i heq
      exact absurd heq (by simp)
    · rename_i heq
      injection heq with hc _
      exact absurd hc hplus
    · rename_i heq
      injection heq with hc _
      exact absurd hc hpct
    · rename_i c' r' heq
      injection heq with hc hr
      rw [← hc, ← hr, ih h.2]

theorem splitAmp_no_amp {a : List Char} (h : a.all (fun c => !(c == '&')) = true) :
    splitAmp a = [a] := by
  induction a with
  | nil => rfl
  | cons c r ih =>
    rw [List.all_cons, Bool.and_eq_true] at h
    have hc : ¬(c = '&') := by
      intro he
      rw [he] at h
      exact absurd h.1 (by decide)
    rw [splitAmp, if_neg hc, ih h.2]

theorem splitAmp_app {a : List Char} (b : List Char)
    (h : a.all (fun c => !(c == '&')) = true) :
    splitAmp (a ++ '&' :: b) = a :: splitAmp b := by
  induction a with
  | nil =>
    rw [List.nil_append, splitAmp, if_pos rfl]
  | cons c r ih =>
    rw [List.all_cons, Bool.and_eq_true] at h
    have hc : ¬(c = '&') := by
      intro he
      rw [he] at h
      exact absurd h.1 (by decide)
    rw [List.cons_append, splitAmp, if_neg hc, ih h.2]

theorem getParam_v_first (id z : List Char) (hall : id.all allowedChar = true)
    (hz : z = [] ∨ ∃ z2, z = '&' :: z2) :
    getParam "v".data ("v=".data ++ (id ++ z)) = some id := by
  have hq : ('v' :: '=' :: id).all (fun c => !(c == '&')) = true := by
    rw [List.all_cons, List.all_cons, all_allowed_nbeq '&' (by decide) hall]
    rfl
  rcases hz with rfl | ⟨z2, rfl⟩
  · show getParam "v".data ('v' :: '=' :: (id ++ [])) = some id
    rw [List.append_nil]
    simp only [getParam]
    rw [splitAmp_no_amp hq]
    show some (formDecode id) = some id
    rw [formDecode_of_allowed hall]
  · show getParam "v".data ('v' :: '=' :: (id ++ '&' :: z2)) = some id
    have hre : ('v' :: '=' :: (id ++ '&' :: z2)) = (('v' :: '=' :: id) ++ '&' :: z2) := by
      simp
    simp only [getParam]
    rw [hre, splitAmp_app z2 hq]
    show some (formDecode id) = some id
    rw [formDecode_of_allowed hall]

theorem schemeDrop_https (X : List Char) :
    schemeDrop ("https://".data ++ X) = some X := by
  have h8 : ("https://".data : List Char).length = 8 := by decide
  rw [schemeDrop,
    leadsWith_app_eq (a := "http://".data) (b := "https://".data) X (by decide),
    if_neg (by decide), if_pos (leadsWith_self_app "https://".data X), ← h8,
    List.drop_left]

theorem schemeDrop_http (X : List Char) :
    schemeDrop ("http://".data ++ X) = some X := by
  have h7 : ("http://".data : List Char).length = 7 := by decide
  rw [schemeDrop, if_pos (leadsWith_self_app "http://".data X), ← h7, List.drop_left]

theorem urlGetV_watch (sch w id t : List Char)
    (hsch : sch = "http://".data ∨ sch = "https://".data)
    (hw : w.all hostChar = true)
    (hall : id.all allowedChar = true) (ht : tailAmpOk t = true) :
    urlGetV (sch ++ (w ++ ("youtube.com/watch?v=".data ++ (id ++ t)))) =
      some id := by
  have hsplit : "youtube.com/watch?v=".data ++ (id ++ t) =
      "youtube.com".data ++ ('/' :: ("watch?v=".data ++ (id ++ t))) := by
    have h0 : "youtube.com/watch?v=".data =
        "youtube.com".data ++ ('/' :: "watch?v=".data) := by decide
    rw [h0, List.append_assoc]
    rfl
  have hauth : authOf (w ++ ("youtube.com/watch?v=".data ++ (id ++ t))) =
      w ++ "youtube.com".data := by
    rw [authOf, hsplit, ← List.append_assoc,
      takeWhile_app_of_all _ (by
        rw [List.all_append, all_hostChar_notdelim hw]
        decide),
      takeWhile_cons_stop _ (by decide), List.append_nil]
  have hne : (w ++ "youtube.com".data).isEmpty = false := by
    cases hb : (w ++ "youtube.com".data).isEmpty with
    | false => rfl
    | true =>
      have h2 := List.isEmpty_iff.mp hb
      have h3 := (List.append_eq_nil.mp h2).2
      exact absurd h3 (by decide)
  have hdrop : (w ++ ("youtube.com/watch?v=".data ++ (id ++ t))).drop
      (w ++ "youtube.com".data).length = '/' :: ("watch?v=".data ++ (id ++ t)) := by
    rw [hsplit, ← List.append_assoc, List.drop_left]
  have hquery : queryOf (w ++ ("youtube.com/watch?v=".data ++ (id ++ t))) =
      "v=".data ++ (id ++ t.takeWhile (fun c => !(c == '#'))) := by
    rw [queryOf, hauth, hdrop]
    have hbf : ('/' :: ("watch?v=".data ++ (id ++ t))).takeWhile (fun c => !(c == '#')) =
        '/' :: ("watch?v=".data ++ (id ++ t.takeWhile (fun c => !(c == '#')))) := by
      show (("/watch?v=".data ++ (id ++ t)).takeWhile (fun c => !(c == '#'))) =
        "/watch?v=".data ++ (id ++ t.takeWhile (fun c => !(c == '#')))
      rw [takeWhile_app_of_all _ (by decide),
        takeWhile_app_of_all _ (all_allowed_nbeq '#' (by decide) hall)]
    rw [hbf]
    show (("/watch".data ++ ('?' :: ("v=".data ++
        (id ++ t.takeWhile (fun c => !(c == '#')))))).dropWhile
          (fun c => !(c == '?'))).drop 1 =
      "v=".data ++ (id ++ t.takeWhile (fun c => !(c == '#')))
    rw [dropWhile_app_of_all _ (by decide), dropWhile_cons_stop _ (by decide)]
    rfl
  have hz : t.takeWhile (fun c => !(c == '#')) = [] ∨
      ∃ z2, t.takeWhile (fun c => !(c == '#')) = '&' :: z2 := by
    cases t with
    | nil => exact Or.inl rfl
    | cons c t2 =>
      simp only [tailAmpOk, List.isEmpty_cons, List.headD, Bool.false_or,
        Bool.or_eq_true, beq_iff_eq] at ht
      rcases ht with rfl | rfl
      · right
        exact ⟨t2.takeWhile (fun c => !(c == '#')), rfl⟩
      · left
        rfl
  have hsd : schemeDrop (sch ++ (w ++ ("youtube.com/watch?v=".data ++ (id ++ t)))) =
      some (w ++ ("youtube.com/watch?v=".data ++ (id ++ t))) := by
    rcases hsch with rfl | rfl
    · exact schemeDrop_http _
    · exact schemeDrop_https _
  unfold urlGetV
  rw [hsd]
  show (if (authOf (w ++ ("youtube.com/watch?v=".data ++ (id ++ t)))).isEmpty = true
      then none
      else getParam "v".data (queryOf (w ++ ("youtube.com/watch?v=".data ++ (id ++ t))))) =
    some id
  rw [hauth, hne, if_neg (by simp), hquery]
  exact getParam_v_first id _ hall hz

theorem windowAtB_succ_cons (c : Char) (r : List Char) (i : Nat) :
    windowAtB (c :: r) (i + 1) = windowAtB r i := by
  rw [windowAtB, windowAtB, List.drop_succ_cons]

theorem windowAtB_zero_iff {s : List Char} :
    windowAtB s 0 = true ↔ (11 ≤ s.length ∧ (s.take 11).all allowedChar = true) := by
  rw [windowAtB, List.drop_zero, Bool.and_eq_true, decide_eq_true_eq]

theorem windowAtB_nil_false (i : Nat) : windowAtB ([] : List Char) i = false := by
  rw [windowAtB]
  simp

theorem fallbackMatch_none_iff {s : List Char} :
    fallbackMatch s = none ↔ ∀ i, windowAtB s i = false := by
  induction s with
  | nil =>
    refine ⟨fun _ i => windowAtB_nil_false i, fun _ => rfl⟩
  | cons c r ih =>
    rw [fallbackMatch]
    by_cases hc : 11 ≤ (c :: r).length ∧ ((c :: r).take 11).all allowedChar = true
    · rw [if_pos hc]
      constructor
      · intro h
        exact absurd h (by simp)
      · intro h
        have h0 := h 0
        rw [← windowAtB_zero_iff] at hc
        rw [h0] at hc
        exact absurd hc (by simp)
    · rw [if_neg hc, ih]
      constructor
      · intro h i
        cases i with
        | zero =>
          cases hb : windowAtB (c :: r) 0 with
          | false => rfl
          | true => exact absurd (windowAtB_zero_iff.mp hb) hc
        | succ i' =>
          rw [windowAtB_succ_cons]
          exact h i'
      · intro h i
        have h2 := h (i + 1)
        rw [windowAtB_succ_cons] at h2
        exact h2

theorem fallbackMatch_eq_of_least {s : List Char} {i : Nat} (hw : windowAtB s i = true)
    (hmin : ∀ j, j < i → windowAtB s j = false) :
    fallbackMatch s = some ((s.drop i).take 11) := by
  induction s generalizing i with
  | nil =>
    rw [windowAtB_nil_false] at hw
    exact absurd hw (by simp)
  | cons c r ih =>
    rw [fallbackMatch]
    cases i with
    | zero =>
      rw [if_pos (windowAtB_zero_iff.mp hw), List.drop_zero]
    | succ i' =>
      have h0 := hmin 0 (by omega)
      have hnc : ¬(11 ≤ (c :: r).length ∧ ((c :: r).take 11).all allowedChar = true) := by
        intro hcc
        rw [← windowAtB_zero_iff] at hcc
        rw [h0] at hcc
        exact absurd hcc (by simp)
      rw [if_neg hnc, List.drop_succ_cons]
      rw [windowAtB_succ_cons] at hw
      apply ih hw
      intro j hj
      have h2 := hmin (j + 1) (by omega)
      rw [windowAtB_succ_cons] at h2
      exact h2

/-! Helper lemmas about the `POST` handler. -/

theorem POST_badId (videoUrl locale : String) (yt : YoutubeOutcome) (ai : OpenAIOutcome)
    (h : extractYouTubeVideoId (some videoUrl) = "") :
    POST videoUrl locale yt ai =
      ⟨{ status := 400, error := some errExtractMsg, receivedUrl := some videoUrl }, none⟩ := by
  simp only [POST]
  rw [h, if_pos rfl]

theorem POST_noContent (videoUrl locale : String) {yt : YoutubeOutcome} (ai : OpenAIOutcome)
    (hid : extractYouTubeVideoId (some videoUrl) ≠ "")
    (htr : jsTrim (buildTranscript yt) = "") :
    POST videoUrl locale yt ai =
      match errorMessagesFor locale with
      | some msg => { response := { status := 400, error := some msg }, openaiCall := none }
      | none =>
        { response := { status := 500, error := some localeLookupCrashMsg },
          openaiCall := none } := by
  simp only [POST]
  rw [if_neg hid, if_pos htr]

theorem POST_openai (videoUrl locale : String) {yt : YoutubeOutcome} (ai : OpenAIOutcome)
    (hid : extractYouTubeVideoId (some videoUrl) ≠ "")
    (htr : jsTrim (buildTranscript yt) ≠ "") :
    POST videoUrl locale yt ai =
      match ai with
      | .error m =>
        { response := { status := 500, error := some ("OpenAI failed: " ++ m) },
          openaiCall := some (mkRequest locale (buildTranscript yt)) }
      | .ok c =>
        match completionContent c with
        | none =>
          { response := { status := 500, error := some "Failed to generate summary" },
            openaiCall := some (mkRequest locale (buildTranscript yt)) }
        | some summary =>
          { response := { status := 200, summary := some summary },
            openaiCall := some (mkRequest locale (buildTranscript yt)) } := by
  simp only [POST]
  rw [if_neg hid, if_neg htr]

theorem fallbackMatch_some_spec {s w : List Char} (h : fallbackMatch s = some w) :
    w.length = 11 ∧ w.all allowedChar = true := by
  induction s with
  | nil => exact absurd h (by simp [fallbackMatch])
  | cons c r ih =>
    rw [fallbackMatch] at h
    split at h
    · rename_i hc
      injection h with h2
      subst h2
      refine ⟨?_, hc.2⟩
      rw [List.length_take, Nat.min_eq_left hc.1]
    · exact ih h

/-! Claim theorems. -/

/-- C1 counterexample: two URL strings of the recognized
`youtube.com/watch?v=<id>` shape, with a valid 11-character id and only
trailing query/fragment content, for which extraction does not return the
id: a scheme-less watch URL (the `URL` constructor throws, which is caught
and yields "no identifier"), and an absolute watch URL whose trailing
fragment contains `youtu.be/` (which hijacks the higher-priority branch and
yields "no identifier"). -/
theorem C1_counterexample :
    extractYouTubeVideoId (some "youtube.com/watch?v=dQw4w9WgXcQ") = "" ∧
    extractYouTubeVideoId
      (some "https://www.youtube.com/watch?v=dQw4w9WgXcQ#youtu.be/") = "" := by
  constructor <;> decide

/-- C1 (amended): for the three path-based shapes (`youtu.be/<id>`,
`youtube.com/v/<id>`, `youtube.com/embed/<id>`), extraction returns exactly
`<id>` (11 characters from `[A-Za-z0-9_-]`) whenever the prefix before the
marker does not itself contain the branch's marker, no higher-priority
marker occurs anywhere in the string, and the trailing content is empty or
starts with `?`, `#` or `&`.  For the `youtube.com/watch?v=<id>` shape the
URL must in addition be an absolute `http://` or `https://` URL, the
trailing content must be empty or start with `&` or `#`, and `youtu.be/`
must not occur in the string. -/
theorem C1_extract_shapes :
    (∀ p id t : List Char, findSubIdx markerShort p = none →
      id.length = 11 → id.all allowedChar = true → tailStopOk t = true →
      extractYouTubeVideoId (some ⟨p ++ (markerShort ++ (id ++ t))⟩) = ⟨id⟩) ∧
    (∀ sch w id t : List Char,
      sch = "http://".data ∨ sch = "https://".data →
      w.all hostChar = true →
      id.length = 11 → id.all allowedChar = true → tailAmpOk t = true →
      hasSub markerShort
        (sch ++ (w ++ ("youtube.com/watch?v=".data ++ (id ++ t)))) = false →
      extractYouTubeVideoId
        (some ⟨sch ++ (w ++ ("youtube.com/watch?v=".data ++ (id ++ t)))⟩) =
        ⟨id⟩) ∧
    (∀ p id t : List Char,
      hasSub markerShort (p ++ (markerV ++ (id ++ t))) = false →
      hasSub markerWatch (p ++ (markerV ++ (id ++ t))) = false →
      findSubIdx markerV p = none →
      id.length = 11 → id.all allowedChar = true → tailStopOk t = true →
      extractYouTubeVideoId (some ⟨p ++ (markerV ++ (id ++ t))⟩) = ⟨id⟩) ∧
    (∀ p id t : List Char,
      hasSub markerShort (p ++ (markerEmbed ++ (id ++ t))) = false →
      hasSub markerWatch (p ++ (markerEmbed ++ (id ++ t))) = false →
      hasSub markerV (p ++ (markerEmbed ++ (id ++ t))) = false →
      findSubIdx markerEmbed p = none →
      id.length = 11 → id.all allowedChar = true → tailStopOk t = true →
      extractYouTubeVideoId (some ⟨p ++ (markerEmbed ++ (id ++ t))⟩) = ⟨id⟩) := by
  refine ⟨?_, ?_, ?_, ?_⟩
  · intro p id t hp hlen hall ht
    have hne : p ++ (markerShort ++ (id ++ t)) ≠ [] := by
      intro h0
      have h1 := (List.append_eq_nil.mp h0).2
      have h2 := (List.append_eq_nil.mp h1).1
      exact absurd h2 (by decide)
    rw [extract_eq_noHardcode, noHardcode_some_mk hne]
    have hd := dispatchId_youtuBe p id t hp hlen hall ht
    exact congrArg String.mk (extractCore_of_valid hd hlen hall)
  · intro sch w id t hsch hw hlen hall ht hm1
    have hne : sch ++ (w ++ ("youtube.com/watch?v=".data ++ (id ++ t))) ≠ [] := by
      intro h0
      have h1 := (List.append_eq_nil.mp h0).1
      rcases hsch with rfl | rfl
      · exact absurd h1 (by decide)
      · exact absurd h1 (by decide)
    rw [extract_eq_noHardcode, noHardcode_some_mk hne]
    have hlit : ("youtube.com/watch?v=".data : List Char) = markerWatch ++ "?v=".data := by
      decide
    have hm2 : hasSub markerWatch
        (sch ++ (w ++ ("youtube.com/watch?v=".data ++ (id ++ t)))) = true := by
      have hre : sch ++ (w ++ ("youtube.com/watch?v=".data ++ (id ++ t))) =
          (sch ++ w) ++ (markerWatch ++ ("?v=".data ++ (id ++ t))) := by
        rw [hlit]
        simp [List.append_assoc]
      rw [hre]
      exact hasSub_mid markerWatch _ _
    have hv := urlGetV_watch sch w id t hsch hw hall ht
    have hd := dispatchId_watch hm1 hm2 hv
    exact congrArg String.mk (extractCore_of_valid hd hlen hall)
  · intro p id t h1 h2 hp hlen hall ht
    have hne : p ++ (markerV ++ (id ++ t)) ≠ [] := by
      intro h0
      have ha := (List.append_eq_nil.mp h0).2
      have hb := (List.append_eq_nil.mp ha).1
      exact absurd hb (by decide)
    rw [extract_eq_noHardcode, noHardcode_some_mk hne]
    have hd := dispatchId_v p id t h1 h2 hp hlen hall ht
    exact congrArg String.mk (extractCore_of_valid hd hlen hall)
  · intro p id t h1 h2 h3 hp hlen hall ht
    have hne : p ++ (markerEmbed ++ (id ++ t)) ≠ [] := by
      intro h0
      have ha := (List.append_eq_nil.mp h0).2
      have hb := (List.append_eq_nil.mp ha).1
      exact absurd hb (by decide)
    rw [extract_eq_noHardcode, noHardcode_some_mk hne]
    have hd := dispatchId_embed p id t h1 h2 h3 hp hlen hall ht
    exact congrArg String.mk (extractCore_of_valid hd hlen hall)

/-- C1 witness: one concrete instance of each of the four shapes of the
amended claim, including the spec's Scenario 2 URL and an `http://`
(non-TLS) watch URL. -/
theorem C1_extract_shapes_witness :
    extractYouTubeVideoId
      (some ⟨"https://".data ++ (markerShort ++ ("dQw4w9WgXcQ".data ++ "?t=1s".data))⟩) =
      ⟨"dQw4w9WgXcQ".data⟩ ∧
    extractYouTubeVideoId
      (some ⟨"https://".data ++ ("www.".data ++
        ("youtube.com/watch?v=".data ++ ("dQw4w9WgXcQ".data ++ "&t=10s".data)))⟩) =
      ⟨"dQw4w9WgXcQ".data⟩ ∧
    extractYouTubeVideoId
      (some ⟨"http://".data ++ ("www.".data ++
        ("youtube.com/watch?v=".data ++ ("dQw4w9WgXcQ".data ++ "".data)))⟩) =
      ⟨"dQw4w9WgXcQ".data⟩ ∧
    extractYouTubeVideoId
      (some ⟨"https://www.".data ++ (markerV ++ ("dQw4w9WgXcQ".data ++ "?fs=1".data))⟩) =
      ⟨"dQw4w9WgXcQ".data⟩ ∧
    extractYouTubeVideoId
      (some ⟨"https://www.".data ++ (markerEmbed ++ ("dQw4w9WgXcQ".data ++ "#top".data))⟩) =
      ⟨"dQw4w9WgXcQ".data⟩ := by
  refine ⟨C1_extract_shapes.1 _ _ _ (by decide) (by decide) (by decide) (by decide),
    C1_extract_shapes.2.1 _ _ _ _ (Or.inr rfl) (by decide) (by decide) (by decide)
      (by decide) (by decide),
    C1_extract_shapes.2.1 _ _ _ _ (Or.inl rfl) (by decide) (by decide) (by decide)
      (by decide) (by decide),
    C1_extract_shapes.2.2.1 _ _ _ (by decide) (by decide) (by decide) (by decide) (by decide)
      (by decide),
    C1_extract_shapes.2.2.2 _ _ _ (by decide) (by decide) (by decide) (by decide) (by decide)
      (by decide) (by decide)⟩

/-- C2: every value `extractYouTubeVideoId` returns is either the empty
string ("no identifier") or a string fully matching `^[A-Za-z0-9_-]{11}$`;
in particular the hardcoded exact-URL shortcut, which returns without
passing through the validation gate, also returns a value satisfying the
pattern. -/
theorem C2_extract_always_valid (u : Option String) :
    extractYouTubeVideoId u = "" ∨
      ((extractYouTubeVideoId u).length = 11 ∧
        (extractYouTubeVideoId u).data.all allowedChar = true) := by
  cases u with
  | none => exact Or.inl rfl
  | some s =>
    by_cases h1 : s = ""
    · subst h1
      exact Or.inl rfl
    · by_cases h2 : s = hardcodedUrl
      · subst h2
        exact Or.inr (by decide)
      · have hdne : s.data ≠ [] := by
          intro hd
          apply h1
          have hs : s = ⟨s.data⟩ := rfl
          rw [hs, hd]
        have hhc : (⟨s.data⟩ : String) ≠ hardcodedUrl := h2
        have he2 : extractYouTubeVideoId (some s) = ⟨extractCore s.data⟩ :=
          extract_some_mk hdne hhc
        rw [he2, extractCore]
        by_cases hv : (!(dispatchId s.data).isEmpty && isValidId (dispatchId s.data)) = true
        · rw [if_pos hv]
          rw [Bool.and_eq_true] at hv
          have hvalid := hv.2
          rw [isValidId, Bool.and_eq_true] at hvalid
          right
          exact ⟨by simpa using hvalid.1, hvalid.2⟩
        · rw [if_neg hv]
          exact Or.inl rfl

/-- C3: extraction never throws.  The embedded function is total by
construction: the only throwing operation of the source (`new URL`) is
modelled by the `Option`-valued `urlGetV`, `none` standing for the locally
caught exception.  Null/undefined input (modelled as `none`) and the empty
string yield "no identifier", and a string that reaches the
`youtube.com/watch` branch but fails URL parsing also yields
"no identifier". -/
theorem C3_no_throw :
    extractYouTubeVideoId none = "" ∧
    extractYouTubeVideoId (some "") = "" ∧
    (∀ s : String, hasSub markerWatch s.data = true →
      hasSub markerShort s.data = false → urlGetV s.data = none →
      extractYouTubeVideoId (some s) = "") := by
  refine ⟨rfl, rfl, ?_⟩
  intro s hw hs hv
  rw [extract_eq_noHardcode]
  by_cases h1 : s = ""
  · subst h1
    rfl
  · have hdne : s.data ≠ [] := by
      intro hd
      apply h1
      have hs2 : s = ⟨s.data⟩ := rfl
      rw [hs2, hd]
    have he2 : extractNoHardcode (some s) = ⟨extractCore s.data⟩ := noHardcode_some_mk hdne
    rw [he2]
    have hd := dispatchId_watch_none hs hw hv
    rw [extractCore_of_nil hd]

/-- C3 witness: a malformed (scheme-less) watch URL, on which the platform
URL constructor throws; the failure is caught and yields "no identifier". -/
theorem C3_no_throw_witness :
    extractYouTubeVideoId (some "youtube.com/watch?v=abcABC123_-") = "" :=
  C3_no_throw.2.2 "youtube.com/watch?v=abcABC123_-" (by decide) (by decide) (by decide)

/-- C4 counterexample: the string `"abcdefghijklmnop"` contains no marker
and its only run of allowed characters is 16 characters long; the claim
says extraction yields no identifier, but the fallback regex matches the
first 11 characters of the run and extraction returns `"abcdefghijk"`. -/
theorem C4_counterexample :
    extractYouTubeVideoId (some "abcdefghijklmnop") = "abcdefghijk" ∧
      ("abcdefghijk" : String) ≠ "" := by
  constructor <;> decide

/-- C4 (amended): for every string containing none of the four markers, the
fallback scans for the leftmost window of 11 consecutive characters from
`[A-Za-z0-9_-]` (the first 11 characters of a run of length ≥ 11, not a run
of exactly 11): extraction yields "no identifier" iff no such window
exists, and when `i` is the least index at which a window starts,
extraction returns precisely the 11 characters starting at `i`. -/
theorem C4_fallback_window (s : String)
    (h1 : hasSub markerShort s.data = false) (h2 : hasSub markerWatch s.data = false)
    (h3 : hasSub markerV s.data = false) (h4 : hasSub markerEmbed s.data = false) :
    (extractYouTubeVideoId (some s) = "" ↔ ∀ i, windowAtB s.data i = false) ∧
    (∀ i, windowAtB s.data i = true → (∀ j, j < i → windowAtB s.data j = false) →
      extractYouTubeVideoId (some s) = ⟨(s.data.drop i).take 11⟩) := by
  by_cases hs : s = ""
  · subst hs
    constructor
    · constructor
      · intro _ i
        exact windowAtB_nil_false i
      · intro _
        rfl
    · intro i hw _
      have hf : windowAtB "".data i = false := windowAtB_nil_false i
      rw [hf] at hw
      exact absurd hw (by simp)
  · have hdne : s.data ≠ [] := by
      intro hd
      apply hs
      have hs2 : s = ⟨s.data⟩ := rfl
      rw [hs2, hd]
    have hhc : (⟨s.data⟩ : String) ≠ hardcodedUrl := by
      intro hh
      have : hasSub markerShort s.data = true := by
        have hdd : s.data = hardcodedUrl.data := congrArg String.data hh
        rw [hdd]
        decide
      rw [this] at h1
      exact absurd h1 (by simp)
    have he2 : extractYouTubeVideoId (some s) = ⟨extractCore s.data⟩ :=
      extract_some_mk hdne hhc
    have hdisp := dispatchId_fallback h1 h2 h3 h4
    constructor
    · constructor
      · intro hx i
        cases hfm : fallbackMatch s.data with
        | none => exact fallbackMatch_none_iff.mp hfm i
        | some w =>
          obtain ⟨hwlen, hwall⟩ := fallbackMatch_some_spec hfm
          have hd : dispatchId s.data = w := by rw [hdisp, hfm]
          have hc := extractCore_of_valid hd hwlen hwall
          rw [he2, hc] at hx
          have hwnil : w = [] := congrArg String.data hx
          rw [hwnil] at hwlen
          exact absurd hwlen (by simp)
      · intro hall0
        have hfm : fallbackMatch s.data = none := fallbackMatch_none_iff.mpr hall0
        have hd : dispatchId s.data = [] := by rw [hdisp, hfm]
        rw [he2, extractCore_of_nil hd]
    · intro i hw hmin
      have hfm := fallbackMatch_eq_of_least hw hmin
      obtain ⟨hwlen, hwall⟩ := fallbackMatch_some_spec hfm
      have hd : dispatchId s.data = (s.data.drop i).take 11 := by rw [hdisp, hfm]
      rw [he2]
      exact congrArg String.mk (extractCore_of_valid hd hwlen hwall)

/-- C4 witness: a marker-free string whose leftmost 11-character window of
allowed characters starts at index 4. -/
theorem C4_fallback_window_witness :
    extractYouTubeVideoId (some "see dQw4w9WgXcQ now") = "dQw4w9WgXcQ" := by
  have h := (C4_fallback_window "see dQw4w9WgXcQ now" (by decide) (by decide) (by decide)
    (by decide)).2 4 (by decide) (by decide)
  exact h.trans (by decide)

theorem POST_openaiCall (vu loc : String) {yt : YoutubeOutcome} (ai : OpenAIOutcome)
    (hid : extractYouTubeVideoId (some vu) ≠ "")
    (htr : jsTrim (buildTranscript yt) ≠ "") :
    (POST vu loc yt ai).openaiCall = some (mkRequest loc (buildTranscript yt)) := by
  rw [POST_openai vu loc ai hid htr]
  cases ai with
  | error m => rfl
  | ok c =>
    rcases hcc : completionContent c with _ | s <;> simp [hcc]

/-- C5: a failure of the metadata call (thrown/rejected call, missing
snippet, or empty description) is never propagated: execution continues
with an empty ContentSource, and for a request locale of `"ko"` or `"en"`
the handler responds HTTP 400 with that locale's `noTranscript` message,
without calling the summarization service. -/
theorem C5_metadata_failure_degrades (vu loc : String) (yt : YoutubeOutcome)
    (ai : OpenAIOutcome) (hid : extractYouTubeVideoId (some vu) ≠ "")
    (hyt : (∃ m, yt = .error m) ∨ yt = .ok none ∨
      ∃ sn, yt = .ok (some sn) ∧ sn.description = "")
    (hloc : loc = "ko" ∨ loc = "en") :
    buildTranscript yt = "" ∧
    (POST vu loc yt ai).response.status = 400 ∧
    (POST vu loc yt ai).response.error =
      some (if loc = "ko" then errKoNoTranscript else errEnNoTranscript) ∧
    (POST vu loc yt ai).openaiCall = none := by
  have ht : buildTranscript yt = "" := by
    rcases hyt with ⟨m, rfl⟩ | rfl | ⟨sn, rfl, hdesc⟩
    · rfl
    · rfl
    · rw [buildTranscript, if_pos hdesc]
  have hP := POST_noContent vu loc ai hid (by rw [ht]; rfl)
  rcases hloc with rfl | rfl
  · have hlk : errorMessagesFor "ko" = some errKoNoTranscript := rfl
    rw [hlk] at hP
    exact ⟨ht, by rw [hP], by rw [hP]; rfl, by rw [hP]⟩
  · have hlk : errorMessagesFor "en" = some errEnNoTranscript := rfl
    rw [hlk] at hP
    exact ⟨ht, by rw [hP], by rw [hP]; rfl, by rw [hP]⟩

/-- C5 witness: a thrown metadata call with locale `"ko"`. -/
theorem C5_metadata_failure_degrades_witness :
    buildTranscript (.error "network error") = "" ∧
    (POST "https://youtu.be/dQw4w9WgXcQ" "ko" (.error "network error")
      (.ok ⟨[]⟩)).response.status = 400 ∧
    (POST "https://youtu.be/dQw4w9WgXcQ" "ko" (.error "network error")
      (.ok ⟨[]⟩)).response.error =
      some (if "ko" = "ko" then errKoNoTranscript else errEnNoTranscript) ∧
    (POST "https://youtu.be/dQw4w9WgXcQ" "ko" (.error "network error")
      (.ok ⟨[]⟩)).openaiCall = none :=
  C5_metadata_failure_degrades "https://youtu.be/dQw4w9WgXcQ" "ko" (.error "network error")
    (.ok ⟨[]⟩) (by decide) (Or.inl ⟨"network error", rfl⟩) (Or.inl rfl)

/-- C6: with a valid identifier, an empty ContentSource, and a locale tag
that is neither `"ko"` nor `"en"`, the locale-keyed error-message lookup
fails while the "no content" error is being constructed, so no HTTP 400 is
produced; the failure falls to the outermost catch and is mapped to an
HTTP 500 response carrying the lookup failure's message. -/
theorem C6_unknown_locale_500 (vu loc : String) (yt : YoutubeOutcome) (ai : OpenAIOutcome)
    (hid : extractYouTubeVideoId (some vu) ≠ "") (hko : loc ≠ "ko") (hen : loc ≠ "en")
    (ht : buildTranscript yt = "") :
    (POST vu loc yt ai).response.status = 500 ∧
    (POST vu loc yt ai).response.error = some localeLookupCrashMsg ∧
    (POST vu loc yt ai).openaiCall = none := by
  have hP := POST_noContent vu loc ai hid (by rw [ht]; rfl)
  have hlk : errorMessagesFor loc = none := by
    rw [errorMessagesFor, if_neg hko, if_neg hen]
  rw [hlk] at hP
  exact ⟨by rw [hP], by rw [hP], by rw [hP]⟩

/-- C6 witness: locale `"fr"` with a failed metadata call. -/
theorem C6_unknown_locale_500_witness :
    (POST "https://youtu.be/dQw4w9WgXcQ" "fr" (.error "quota") (.ok ⟨[]⟩)).response.status =
      500 ∧
    (POST "https://youtu.be/dQw4w9WgXcQ" "fr" (.error "quota") (.ok ⟨[]⟩)).response.error =
      some localeLookupCrashMsg ∧
    (POST "https://youtu.be/dQw4w9WgXcQ" "fr" (.error "quota") (.ok ⟨[]⟩)).openaiCall =
      none :=
  C6_unknown_locale_500 "https://youtu.be/dQw4w9WgXcQ" "fr" (.error "quota") (.ok ⟨[]⟩)
    (by decide) (by decide) (by decide) rfl

/-- C7: for a request that reaches the language-model call, a thrown call
is answered with HTTP 500 embedding the failure's description, and a
successful call whose response lacks the expected text content (missing
`choices`/`message`/`content`, or empty content) is answered with the
generic HTTP 500 "Failed to generate summary" — in both cases without the
handler crashing (the embedded handler is total). -/
theorem C7_openai_failure_mapping (vu loc : String) (yt : YoutubeOutcome)
    (hid : extractYouTubeVideoId (some vu) ≠ "")
    (htr : jsTrim (buildTranscript yt) ≠ "") :
    (∀ m, (POST vu loc yt (.error m)).response.status = 500 ∧
      (POST vu loc yt (.error m)).response.error = some ("OpenAI failed: " ++ m)) ∧
    (∀ c, completionContent c = none →
      (POST vu loc yt (.ok c)).response.status = 500 ∧
      (POST vu loc yt (.ok c)).response.error = some "Failed to generate summary") := by
  constructor
  · intro m
    have hP := POST_openai vu loc (.error m) hid htr
    exact ⟨by rw [hP], by rw [hP]⟩
  · intro c hc
    have hP2 : POST vu loc yt (.ok c) =
        match completionContent c with
        | none => (⟨⟨500, some "Failed to generate summary", none, none⟩,
            some (mkRequest loc (buildTranscript yt))⟩ : PostResult)
        | some summary => ⟨⟨200, none, none, some summary⟩,
            some (mkRequest loc (buildTranscript yt))⟩ :=
      POST_openai vu loc (.ok c) hid htr
    rw [hc] at hP2
    exact ⟨by rw [hP2], by rw [hP2]⟩

/-- C7 witness: a thrown OpenAI call, and a successful call with an empty
`choices` array. -/
theorem C7_openai_failure_mapping_witness :
    (POST "https://youtu.be/dQw4w9WgXcQ" "en" (.ok (some ⟨"T", "D"⟩))
      (.error "rate limit")).response.status = 500 ∧
    (POST "https://youtu.be/dQw4w9WgXcQ" "en" (.ok (some ⟨"T", "D"⟩))
      (.error "rate limit")).response.error = some ("OpenAI failed: " ++ "rate limit") ∧
    (POST "https://youtu.be/dQw4w9WgXcQ" "en" (.ok (some ⟨"T", "D"⟩))
      (.ok ⟨[]⟩)).response.status = 500 ∧
    (POST "https://youtu.be/dQw4w9WgXcQ" "en" (.ok (some ⟨"T", "D"⟩))
      (.ok ⟨[]⟩)).response.error = some "Failed to generate summary" := by
  have h := C7_openai_failure_mapping "https://youtu.be/dQw4w9WgXcQ" "en"
    (.ok (some ⟨"T", "D"⟩)) (by decide) (by decide)
  exact ⟨(h.1 "rate limit").1, (h.1 "rate limit").2, (h.2 ⟨[]⟩ rfl).1, (h.2 ⟨[]⟩ rfl).2⟩

/-- C8: whenever the videoUrl yields no identifier, the handler responds
HTTP 400 with an error message and a `receivedUrl` field echoing the
original unparsed input, and no summarization call is made. -/
theorem C8_extract_failure_400 (vu loc : String) (yt : YoutubeOutcome) (ai : OpenAIOutcome)
    (h : extractYouTubeVideoId (some vu) = "") :
    (POST vu loc yt ai).response.status = 400 ∧
    (POST vu loc yt ai).response.error = some errExtractMsg ∧
    (POST vu loc yt ai).response.receivedUrl = some vu ∧
    (POST vu loc yt ai).openaiCall = none := by
  have hP := POST_badId vu loc yt ai h
  exact ⟨by rw [hP], by rw [hP], by rw [hP], by rw [hP]⟩

/-- C8 witness: the empty-string videoUrl of the spec's Scenario 3; the
body's `receivedUrl` is `""`. -/
theorem C8_extract_failure_400_witness :
    (POST "" "ko" (.ok none) (.ok ⟨[]⟩)).response.status = 400 ∧
    (POST "" "ko" (.ok none) (.ok ⟨[]⟩)).response.error = some errExtractMsg ∧
    (POST "" "ko" (.ok none) (.ok ⟨[]⟩)).response.receivedUrl = some "" ∧
    (POST "" "ko" (.ok none) (.ok ⟨[]⟩)).openaiCall = none :=
  C8_extract_failure_400 "" "ko" (.ok none) (.ok ⟨[]⟩) rfl

/-- C9: the user-message text sent to the summarization call is the locale's
instruction prefix followed by the truncated ContentSource: a ContentSource
longer than 60,000 characters is cut to exactly its first 60,000 characters
(plain prefix cut), and one of at most 60,000 characters is passed
unchanged. -/
theorem C9_truncation (vu loc : String) (yt : YoutubeOutcome) (ai : OpenAIOutcome)
    (hid : extractYouTubeVideoId (some vu) ≠ "")
    (htr : jsTrim (buildTranscript yt) ≠ "") :
    ∃ req, (POST vu loc yt ai).openaiCall = some req ∧
      req.userContent = userPromptFor loc ++ truncateContent (buildTranscript yt) ∧
      ((buildTranscript yt).length > 60000 →
        truncateContent (buildTranscript yt) = ⟨(buildTranscript yt).data.take 60000⟩ ∧
        (truncateContent (buildTranscript yt)).length = 60000) ∧
      ((buildTranscript yt).length ≤ 60000 →
        truncateContent (buildTranscript yt) = buildTranscript yt) := by
  refine ⟨mkRequest loc (buildTranscript yt), POST_openaiCall vu loc ai hid htr, rfl,
    ?_, ?_⟩
  · intro hgt
    refine ⟨by rw [truncateContent, if_pos hgt], ?_⟩
    rw [truncateContent, if_pos hgt]
    show ((buildTranscript yt).data.take 60000).length = 60000
    have hgt2 : 60000 ≤ (buildTranscript yt).data.length := le_of_lt hgt
    rw [List.length_take, Nat.min_eq_left hgt2]
  · intro hle
    rw [truncateContent, if_neg (by omega)]

/-- C9 witness: a short ContentSource is passed unchanged inside the
locale's user prompt. -/
theorem C9_truncation_witness :
    ∃ req, (POST "https://youtu.be/dQw4w9WgXcQ" "en" (.ok (some ⟨"T", "D"⟩))
        (.ok ⟨[]⟩)).openaiCall = some req ∧
      req.userContent = userPromptFor "en" ++
        truncateContent (buildTranscript (.ok (some ⟨"T", "D"⟩))) ∧
      ((buildTranscript (.ok (some ⟨"T", "D"⟩)) : String).length > 60000 →
        truncateContent (buildTranscript (.ok (some ⟨"T", "D"⟩))) =
          ⟨(buildTranscript (.ok (some ⟨"T", "D"⟩)) : String).data.take 60000⟩ ∧
        (truncateContent (buildTranscript (.ok (some ⟨"T", "D"⟩)))).length = 60000) ∧
      ((buildTranscript (.ok (some ⟨"T", "D"⟩)) : String).length ≤ 60000 →
        truncateContent (buildTranscript (.ok (some ⟨"T", "D"⟩))) =
          buildTranscript (.ok (some ⟨"T", "D"⟩))) :=
  C9_truncation "https://youtu.be/dQw4w9WgXcQ" "en" (.ok (some ⟨"T", "D"⟩)) (.ok ⟨[]⟩)
    (by decide) (by decide)

/-- C10: the hardcoded early return for the exact URL
`https://youtu.be/QiZ62yswdPw?si=IHWvSDSvLUQXqYpm` is behaviour-preserving:
`extractYouTubeVideoId` agrees on every input with the same function with
the shortcut removed (on that input the general `youtu.be` branch and the
validation gate also produce `QiZ62yswdPw`). -/
theorem C10_hardcoded_shortcut_preserving (u : Option String) :
    extractYouTubeVideoId u = extractNoHardcode u :=
  extract_eq_noHardcode u
